import Mathlib

/-!
Shallow embedding of `src/validators.go` of the `jwt` repository: the seven
claim validators, the sentinel error values, and the validation pipeline.
Go's `error` result becomes `Option JwtError` (`nil` is `none`); `time.Time`
becomes a seconds/nanoseconds pair compared lexicographically, as Go's
`After`/`Before` do.
-/

namespace Jwt

/-- Model of Go `time.Time`: a wall-clock instant given as seconds and
nanoseconds since the Unix epoch. -/
structure GoTime where
  sec : Int
  nsec : Int
  deriving DecidableEq

/-- Go `time.Time.After`: `t.After u` holds when `t` is strictly after `u`,
comparing seconds first and nanoseconds on a tie. -/
def GoTime.After (t u : GoTime) : Prop :=
  u.sec < t.sec ∨ (t.sec = u.sec ∧ u.nsec < t.nsec)

instance (t u : GoTime) : Decidable (t.After u) :=
  inferInstanceAs (Decidable (_ ∨ _))

/-- Go `time.Time.Before`: `t.Before u` holds when `t` is strictly before `u`. -/
def GoTime.Before (t u : GoTime) : Prop :=
  t.sec < u.sec ∨ (t.sec = u.sec ∧ t.nsec < u.nsec)

instance (t u : GoTime) : Decidable (t.Before u) :=
  inferInstanceAs (Decidable (_ ∨ _))

/-- Go `time.Unix sec 0`: the instant `sec` whole seconds after the epoch. -/
def timeUnix (sec : Int) : GoTime :=
  ⟨sec, 0⟩

/-- Go `type Audience []string`: the audience whitelist / payload audience. -/
abbrev Audience := List String

/-- Modelled from the spec: the decoded token `Payload` structure. Its Go
definition is not under `src/`; the spec's data model (§3) lists exactly these
fields, and `validators.go` reads them through a `*Payload`. -/
structure Payload where
  Issuer : String
  Subject : String
  Audience : Audience
  ExpirationTime : Int
  IssuedAt : Int
  NotBefore : Int
  JWTID : String
  deriving DecidableEq

/-- The seven exported sentinel errors of `validators.go`. Each Go
`errors.New` call yields a distinct identity, so they form a closed
seven-element enumeration compared by identity. -/
inductive JwtError where
  | aud
  | exp
  | iat
  | iss
  | jti
  | nbf
  | sub
  deriving DecidableEq

/-- `ValidatorFunc`: a validation unit takes a payload and returns `nil`
(success) or a claim error. -/
abbrev ValidatorFunc := Payload → Option JwtError

/-- `AudienceValidator` from `validators.go`: the closure scans the server
whitelist (outer loop) against the payload audience (inner loop) and returns
`nil` on the first exact string match, `ErrAudValidation` otherwise. -/
def AudienceValidator (aud : Audience) (p : Payload) : Option JwtError :=
  if aud.any fun serverAud => p.Audience.any fun clientAud => clientAud == serverAud
  then none
  else some JwtError.aud

/-- `ExpirationTimeValidator` from `validators.go`: skip a zero claim unless
`validateZero`, otherwise fail when `now` is after `time.Unix expint 0`. -/
def ExpirationTimeValidator (now : GoTime) (validateZero : Bool) (p : Payload) :
    Option JwtError :=
  let expint := p.ExpirationTime
  if !validateZero && expint == 0 then none
  else if now.After (timeUnix expint) then some JwtError.exp
  else none

/-- `IssuedAtValidator` from `validators.go`: fail when `now` is before
`time.Unix p.IssuedAt 0`. -/
def IssuedAtValidator (now : GoTime) (p : Payload) : Option JwtError :=
  if now.Before (timeUnix p.IssuedAt) then some JwtError.iat
  else none

/-- `IssuerValidator` from `validators.go`: fail on exact string mismatch. -/
def IssuerValidator (iss : String) (p : Payload) : Option JwtError :=
  if p.Issuer ≠ iss then some JwtError.iss
  else none

/-- `JWTIDValidator` from `validators.go`: fail on exact string mismatch. -/
def JWTIDValidator (jti : String) (p : Payload) : Option JwtError :=
  if p.JWTID ≠ jti then some JwtError.jti
  else none

/-- `NotBeforeValidator` from `validators.go`: fail when `now` is before
`time.Unix p.NotBefore 0`. -/
def NotBeforeValidator (now : GoTime) (p : Payload) : Option JwtError :=
  if now.Before (timeUnix p.NotBefore) then some JwtError.nbf
  else none

/-- `SubjectValidator` from `validators.go`: fail on exact string mismatch. -/
def SubjectValidator (sub : String) (p : Payload) : Option JwtError :=
  if p.Subject ≠ sub then some JwtError.sub
  else none

/-- State-passing reading of `AudienceValidator`: the Go closure receives a
`*Payload`, so this version returns the payload state alongside the result at
each `return` site; a write through the pointer would show up in the first
component. The body only reads `p`, hence `p` is returned unchanged at both
return sites. -/
def AudienceValidatorS (aud : Audience) (p : Payload) : Payload × Option JwtError :=
  if aud.any fun serverAud => p.Audience.any fun clientAud => clientAud == serverAud
  then (p, none)
  else (p, some JwtError.aud)

/-- State-passing reading of `ExpirationTimeValidator` (see
`AudienceValidatorS`). -/
def ExpirationTimeValidatorS (now : GoTime) (validateZero : Bool) (p : Payload) :
    Payload × Option JwtError :=
  let expint := p.ExpirationTime
  if !validateZero && expint == 0 then (p, none)
  else if now.After (timeUnix expint) then (p, some JwtError.exp)
  else (p, none)

/-- State-passing reading of `IssuedAtValidator` (see `AudienceValidatorS`). -/
def IssuedAtValidatorS (now : GoTime) (p : Payload) : Payload × Option JwtError :=
  if now.Before (timeUnix p.IssuedAt) then (p, some JwtError.iat)
  else (p, none)

/-- State-passing reading of `IssuerValidator` (see `AudienceValidatorS`). -/
def IssuerValidatorS (iss : String) (p : Payload) : Payload × Option JwtError :=
  if p.Issuer ≠ iss then (p, some JwtError.iss)
  else (p, none)

/-- State-passing reading of `JWTIDValidator` (see `AudienceValidatorS`). -/
def JWTIDValidatorS (jti : String) (p : Payload) : Payload × Option JwtError :=
  if p.JWTID ≠ jti then (p, some JwtError.jti)
  else (p, none)

/-- State-passing reading of `NotBeforeValidator` (see `AudienceValidatorS`). -/
def NotBeforeValidatorS (now : GoTime) (p : Payload) : Payload × Option JwtError :=
  if now.Before (timeUnix p.NotBefore) then (p, some JwtError.nbf)
  else (p, none)

/-- State-passing reading of `SubjectValidator` (see `AudienceValidatorS`). -/
def SubjectValidatorS (sub : String) (p : Payload) : Payload × Option JwtError :=
  if p.Subject ≠ sub then (p, some JwtError.sub)
  else (p, none)

/-- Modelled from the spec: the Validation Pipeline runner (its Go definition
is not under `src/`). Spec §4.2: given a payload and an ordered sequence of
units, evaluate units in the given order; stop and return the first non-nil
failure; if all units pass, return success. -/
def runPipeline (units : List ValidatorFunc) (p : Payload) : Option JwtError :=
  match units with
  | [] => none
  | u :: rest =>
    match u p with
    | some e => some e
    | none => runPipeline rest p

/-- Two successive invocations of a state-passing unit on the same payload:
the second invocation receives the payload state left by the first, and the
pair of results is returned. -/
def runTwice (u : Payload → Payload × Option JwtError) (p : Payload) :
    Option JwtError × Option JwtError :=
  ((u p).2, (u (u p).1).2)

lemma AudienceValidatorS_fst (aud : Audience) (p : Payload) :
    (AudienceValidatorS aud p).1 = p := by
  unfold AudienceValidatorS
  split <;> rfl

lemma ExpirationTimeValidatorS_fst (now : GoTime) (validateZero : Bool) (p : Payload) :
    (ExpirationTimeValidatorS now validateZero p).1 = p := by
  unfold ExpirationTimeValidatorS
  dsimp only
  split
  · rfl
  · split <;> rfl

lemma IssuedAtValidatorS_fst (now : GoTime) (p : Payload) :
    (IssuedAtValidatorS now p).1 = p := by
  unfold IssuedAtValidatorS
  split <;> rfl

lemma IssuerValidatorS_fst (iss : String) (p : Payload) :
    (IssuerValidatorS iss p).1 = p := by
  unfold IssuerValidatorS
  split <;> rfl

lemma JWTIDValidatorS_fst (jti : String) (p : Payload) :
    (JWTIDValidatorS jti p).1 = p := by
  unfold JWTIDValidatorS
  split <;> rfl

lemma NotBeforeValidatorS_fst (now : GoTime) (p : Payload) :
    (NotBeforeValidatorS now p).1 = p := by
  unfold NotBeforeValidatorS
  split <;> rfl

lemma SubjectValidatorS_fst (sub : String) (p : Payload) :
    (SubjectValidatorS sub p).1 = p := by
  unfold SubjectValidatorS
  split <;> rfl

/-- C1: the validator returned by `AudienceValidator W` succeeds on a payload
exactly when some string occurs in both the whitelist `W` and the payload's
audience sequence (exact string equality, order-independent), and its only
other outcome is the audience error. -/
theorem AudienceValidator_success_iff_overlap (W : Audience) (p : Payload) :
    (AudienceValidator W p = none ↔ ∃ s, s ∈ W ∧ s ∈ p.Audience) ∧
    (AudienceValidator W p = none ∨ AudienceValidator W p = some JwtError.aud) := by
  unfold AudienceValidator
  by_cases h :
      (W.any fun serverAud => p.Audience.any fun clientAud => clientAud == serverAud) = true
  · rw [if_pos h]
    refine ⟨⟨fun _ => ?_, fun _ => rfl⟩, Or.inl rfl⟩
    simp only [List.any_eq_true, beq_iff_eq] at h
    rcases h with ⟨a, ha, c, hc, hce⟩
    exact ⟨a, ha, hce ▸ hc⟩
  · rw [if_neg h]
    refine ⟨⟨fun hcontra => Option.noConfusion hcontra, ?_⟩, Or.inr rfl⟩
    rintro ⟨s, hsW, hsA⟩
    exfalso
    apply h
    simp only [List.any_eq_true, beq_iff_eq]
    exact ⟨s, hsW, s, hsA, rfl⟩

/-- C2: `ExpirationTimeValidator t validateZero` returns success when the
payload's expiration is zero and `validateZero` is false, regardless of `t`;
otherwise it returns the expiration error exactly when `t` is strictly after
the instant `ExpirationTime` seconds after the epoch, and success otherwise. -/
theorem ExpirationTimeValidator_ok (t : GoTime) (validateZero : Bool) (p : Payload) :
    (validateZero = false ∧ p.ExpirationTime = 0 →
      ExpirationTimeValidator t validateZero p = none) ∧
    (¬(validateZero = false ∧ p.ExpirationTime = 0) →
      (ExpirationTimeValidator t validateZero p = some JwtError.exp ↔
        t.After (timeUnix p.ExpirationTime)) ∧
      (ExpirationTimeValidator t validateZero p = none ↔
        ¬ t.After (timeUnix p.ExpirationTime))) := by
  unfold ExpirationTimeValidator
  dsimp only
  constructor
  · rintro ⟨hvz, hexp⟩
    have hc : (!validateZero && p.ExpirationTime == 0) = true := by
      simp [hvz, hexp]
    rw [if_pos hc]
  · intro hne
    have hc : ¬((!validateZero && p.ExpirationTime == 0) = true) := by
      intro hcond
      simp only [Bool.and_eq_true, Bool.not_eq_true', beq_iff_eq] at hcond
      exact hne hcond
    rw [if_neg hc]
    by_cases ha : t.After (timeUnix p.ExpirationTime)
    · rw [if_pos ha]
      exact ⟨⟨fun _ => ha, fun _ => rfl⟩,
        ⟨fun hc2 => Option.noConfusion hc2, fun hc2 => absurd ha hc2⟩⟩
    · rw [if_neg ha]
      exact ⟨⟨fun hc2 => Option.noConfusion hc2, fun hb => absurd hb ha⟩,
        ⟨fun _ => ha, fun _ => rfl⟩⟩

/-- C3: the pipeline evaluates units in order: when every unit of the prefix
`us1` passes and `u` fails with `e`, the pipeline over `us1 ++ u :: us2`
returns exactly `e`, for every suffix `us2` (so no unit after the first
failure can influence the result), and the all-passing prefix alone yields
success. -/
theorem runPipeline_first_failure (p : Payload) (us1 us2 : List ValidatorFunc)
    (u : ValidatorFunc) (e : JwtError)
    (h1 : ∀ v ∈ us1, v p = none) (h2 : u p = some e) :
    runPipeline (us1 ++ u :: us2) p = some e ∧ runPipeline us1 p = none := by
  induction us1 with
  | nil =>
    exact ⟨by simp [runPipeline, h2], rfl⟩
  | cons v rest ih =>
    have hv : v p = none := h1 v (List.mem_cons_self v rest)
    have hrest : ∀ w ∈ rest, w p = none := fun w hw => h1 w (List.mem_cons_of_mem v hw)
    have hih := ih hrest
    constructor
    · show runPipeline (v :: (rest ++ u :: us2)) p = some e
      simp [runPipeline, hv, hih.1]
    · simp [runPipeline, hv, hih.2]

/-- A concrete run of the pipeline property: the issuer check passes, the
subject check fails, and the trailing JWTID check cannot change the result. -/
theorem runPipeline_first_failure_witness :
    runPipeline ([IssuerValidator "a"] ++ SubjectValidator "x" :: [JWTIDValidator "j"])
        ⟨"a", "y", [], 0, 0, 0, ""⟩ = some JwtError.sub ∧
      runPipeline [IssuerValidator "a"] ⟨"a", "y", [], 0, 0, 0, ""⟩ = none :=
  runPipeline_first_failure ⟨"a", "y", [], 0, 0, 0, ""⟩ [IssuerValidator "a"]
    [JWTIDValidator "j"] (SubjectValidator "x") JwtError.sub
    (by
      intro v hv
      rw [List.mem_singleton] at hv
      subst hv
      decide)
    (by decide)

/-- C4: `IssuedAtValidator t` fails with the issued-at error exactly when `t`
is strictly before the instant `IssuedAt` seconds after the epoch, and
succeeds otherwise; a zero issued-at value gets no special treatment. -/
theorem IssuedAtValidator_ok (t : GoTime) (p : Payload) :
    (IssuedAtValidator t p = some JwtError.iat ↔ t.Before (timeUnix p.IssuedAt)) ∧
    (IssuedAtValidator t p = none ↔ ¬ t.Before (timeUnix p.IssuedAt)) := by
  unfold IssuedAtValidator
  by_cases h : t.Before (timeUnix p.IssuedAt)
  · rw [if_pos h]
    exact ⟨⟨fun _ => h, fun _ => rfl⟩,
      ⟨fun hc => Option.noConfusion hc, fun hc => absurd h hc⟩⟩
  · rw [if_neg h]
    exact ⟨⟨fun hc => Option.noConfusion hc, fun hb => absurd hb h⟩,
      ⟨fun _ => h, fun _ => rfl⟩⟩

/-- C5: `NotBeforeValidator t` fails with the not-before error exactly when
`t` is strictly before the instant `NotBefore` seconds after the epoch, and
succeeds otherwise; a zero not-before value gets no special treatment. -/
theorem NotBeforeValidator_ok (t : GoTime) (p : Payload) :
    (NotBeforeValidator t p = some JwtError.nbf ↔ t.Before (timeUnix p.NotBefore)) ∧
    (NotBeforeValidator t p = none ↔ ¬ t.Before (timeUnix p.NotBefore)) := by
  unfold NotBeforeValidator
  by_cases h : t.Before (timeUnix p.NotBefore)
  · rw [if_pos h]
    exact ⟨⟨fun _ => h, fun _ => rfl⟩,
      ⟨fun hc => Option.noConfusion hc, fun hc => absurd h hc⟩⟩
  · rw [if_neg h]
    exact ⟨⟨fun hc => Option.noConfusion hc, fun hb => absurd hb h⟩,
      ⟨fun _ => h, fun _ => rfl⟩⟩

/-- C6: the issuer, subject and JWTID validators fail with their claim's error
exactly when the corresponding payload field differs from the expected string,
and succeed exactly on exact equality — the empty expected string included,
since `s` ranges over all strings. -/
theorem exact_match_validators_ok (s : String) (p : Payload) :
    (IssuerValidator s p = some JwtError.iss ↔ p.Issuer ≠ s) ∧
    (IssuerValidator s p = none ↔ p.Issuer = s) ∧
    (SubjectValidator s p = some JwtError.sub ↔ p.Subject ≠ s) ∧
    (SubjectValidator s p = none ↔ p.Subject = s) ∧
    (JWTIDValidator s p = some JwtError.jti ↔ p.JWTID ≠ s) ∧
    (JWTIDValidator s p = none ↔ p.JWTID = s) := by
  unfold IssuerValidator SubjectValidator JWTIDValidator
  by_cases h1 : p.Issuer = s <;> by_cases h2 : p.Subject = s <;>
    by_cases h3 : p.JWTID = s <;> simp [h1, h2, h3]

/-- C7: the error taxonomy is exactly the seven pairwise-distinct claim
errors, and each validator either succeeds or returns precisely its own
claim's error — never a different, generic or wrapped one. -/
theorem error_taxonomy_ok :
    (∀ e : JwtError, e = JwtError.aud ∨ e = JwtError.exp ∨ e = JwtError.iat ∨
        e = JwtError.iss ∨ e = JwtError.jti ∨ e = JwtError.nbf ∨ e = JwtError.sub) ∧
    List.Pairwise (fun a b => a ≠ b)
      [JwtError.aud, JwtError.exp, JwtError.iat, JwtError.iss, JwtError.jti,
        JwtError.nbf, JwtError.sub] ∧
    (∀ W p, AudienceValidator W p = none ∨ AudienceValidator W p = some JwtError.aud) ∧
    (∀ t vz p, ExpirationTimeValidator t vz p = none ∨
        ExpirationTimeValidator t vz p = some JwtError.exp) ∧
    (∀ t p, IssuedAtValidator t p = none ∨ IssuedAtValidator t p = some JwtError.iat) ∧
    (∀ s p, IssuerValidator s p = none ∨ IssuerValidator s p = some JwtError.iss) ∧
    (∀ s p, JWTIDValidator s p = none ∨ JWTIDValidator s p = some JwtError.jti) ∧
    (∀ t p, NotBeforeValidator t p = none ∨ NotBeforeValidator t p = some JwtError.nbf) ∧
    (∀ s p, SubjectValidator s p = none ∨ SubjectValidator s p = some JwtError.sub) := by
  refine ⟨fun e => by cases e <;> simp, by decide, ?_, ?_, ?_, ?_, ?_, ?_, ?_⟩
  · intro W p
    unfold AudienceValidator
    split
    · exact Or.inl rfl
    · exact Or.inr rfl
  · intro t vz p
    unfold ExpirationTimeValidator
    dsimp only
    split
    · exact Or.inl rfl
    · split
      · exact Or.inr rfl
      · exact Or.inl rfl
  · intro t p
    unfold IssuedAtValidator
    split
    · exact Or.inr rfl
    · exact Or.inl rfl
  · intro s p
    unfold IssuerValidator
    split
    · exact Or.inr rfl
    · exact Or.inl rfl
  · intro s p
    unfold JWTIDValidator
    split
    · exact Or.inr rfl
    · exact Or.inl rfl
  · intro t p
    unfold NotBeforeValidator
    split
    · exact Or.inr rfl
    · exact Or.inl rfl
  · intro s p
    unfold SubjectValidator
    split
    · exact Or.inr rfl
    · exact Or.inl rfl

/-- C8: invoking any configured unit twice in sequence on the same payload
(the second call receiving the payload state the first call left behind)
yields the same result both times, for each of the seven validators. -/
theorem validators_deterministic (W : Audience) (t tE tN : GoTime) (vz : Bool)
    (iss jti sub : String) (p : Payload) :
    (runTwice (AudienceValidatorS W) p).1 = (runTwice (AudienceValidatorS W) p).2 ∧
    (runTwice (ExpirationTimeValidatorS tE vz) p).1 =
      (runTwice (ExpirationTimeValidatorS tE vz) p).2 ∧
    (runTwice (IssuedAtValidatorS t) p).1 = (runTwice (IssuedAtValidatorS t) p).2 ∧
    (runTwice (IssuerValidatorS iss) p).1 = (runTwice (IssuerValidatorS iss) p).2 ∧
    (runTwice (JWTIDValidatorS jti) p).1 = (runTwice (JWTIDValidatorS jti) p).2 ∧
    (runTwice (NotBeforeValidatorS tN) p).1 = (runTwice (NotBeforeValidatorS tN) p).2 ∧
    (runTwice (SubjectValidatorS sub) p).1 = (runTwice (SubjectValidatorS sub) p).2 := by
  unfold runTwice
  refine ⟨?_, ?_, ?_, ?_, ?_, ?_, ?_⟩ <;>
    simp only [AudienceValidatorS_fst, ExpirationTimeValidatorS_fst, IssuedAtValidatorS_fst,
      IssuerValidatorS_fst, JWTIDValidatorS_fst, NotBeforeValidatorS_fst, SubjectValidatorS_fst]

/-- C9: no validator mutates the payload: in the state-passing reading, each
of the seven validators returns the payload it was given, every field intact. -/
theorem validators_frame (W : Audience) (t tE tN : GoTime) (vz : Bool)
    (iss jti sub : String) (p : Payload) :
    (AudienceValidatorS W p).1 = p ∧ (ExpirationTimeValidatorS tE vz p).1 = p ∧
    (IssuedAtValidatorS t p).1 = p ∧ (IssuerValidatorS iss p).1 = p ∧
    (JWTIDValidatorS jti p).1 = p ∧ (NotBeforeValidatorS tN p).1 = p ∧
    (SubjectValidatorS sub p).1 = p :=
  ⟨AudienceValidatorS_fst W p, ExpirationTimeValidatorS_fst tE vz p,
    IssuedAtValidatorS_fst t p, IssuerValidatorS_fst iss p, JWTIDValidatorS_fst jti p,
    NotBeforeValidatorS_fst tN p, SubjectValidatorS_fst sub p⟩

/-- C10: with `validateZero` true, a zero expiration is not skipped: the
validator fails with the expiration error exactly when `t` is strictly after
the Unix epoch instant, and succeeds otherwise. -/
theorem ExpirationTimeValidator_zero_strict (t : GoTime) (p : Payload)
    (h : p.ExpirationTime = 0) :
    (ExpirationTimeValidator t true p = some JwtError.exp ↔ t.After (timeUnix 0)) ∧
    (ExpirationTimeValidator t true p = none ↔ ¬ t.After (timeUnix 0)) := by
  unfold ExpirationTimeValidator
  dsimp only
  rw [h]
  have hc : ¬((!true && (0 : Int) == 0) = true) := by simp
  rw [if_neg hc]
  by_cases ha : t.After (timeUnix 0)
  · rw [if_pos ha]
    exact ⟨⟨fun _ => ha, fun _ => rfl⟩,
      ⟨fun hc2 => Option.noConfusion hc2, fun hc2 => absurd ha hc2⟩⟩
  · rw [if_neg ha]
    exact ⟨⟨fun hc2 => Option.noConfusion hc2, fun hb => absurd hb ha⟩,
      ⟨fun _ => ha, fun _ => rfl⟩⟩

/-- A concrete run of the zero-expiration property: one second after the
epoch, a zero-expiration payload is rejected under `validateZero = true`. -/
theorem ExpirationTimeValidator_zero_strict_witness :
    (ExpirationTimeValidator ⟨1, 0⟩ true ⟨"", "", [], 0, 0, 0, ""⟩ = some JwtError.exp ↔
        GoTime.After ⟨1, 0⟩ (timeUnix 0)) ∧
      (ExpirationTimeValidator ⟨1, 0⟩ true ⟨"", "", [], 0, 0, 0, ""⟩ = none ↔
        ¬ GoTime.After ⟨1, 0⟩ (timeUnix 0)) :=
  ExpirationTimeValidator_zero_strict ⟨1, 0⟩ ⟨"", "", [], 0, 0, 0, ""⟩ rfl

end Jwt
